import Mathlib

/-!
Verification development for `commit-date-changer`, a CLI tool that rewrites
the author/committer timestamp of a Git commit subject to chronological
constraints.

Shallow embedding conventions:
* JavaScript `Date` values are modelled as epoch milliseconds (`Nat`); the
  tool's domain is commit timestamps, all at or after 1970.
* JavaScript strings are modelled as `List Char`.
* External collaborators (the `date-fns` ISO parser, the `git` subprocess)
  are modelled as oracle functions supplied through environment records;
  the repository's own control flow is translated from the source.
* `try`/`catch` flows are modelled with `Option`/`Except`; a thrown error is
  an `Except.error` value.
-/

/-- Decimal digit character for `d` (source: JS number-to-string padding);
`d` is always `< 10` at call sites. -/
def dChar (d : Nat) : Char :=
  match d with
  | 0 => '0' | 1 => '1' | 2 => '2' | 3 => '3' | 4 => '4'
  | 5 => '5' | 6 => '6' | 7 => '7' | 8 => '8' | _ => '9'

/-- Two-digit zero-padded rendering, as in `Date.prototype.toISOString`. -/
def pad2 (n : Nat) : List Char :=
  [dChar (n / 10 % 10), dChar (n % 10)]

/-- Three-digit zero-padded rendering (milliseconds field). -/
def pad3 (n : Nat) : List Char :=
  [dChar (n / 100 % 10), dChar (n / 10 % 10), dChar (n % 10)]

/-- Four-digit zero-padded rendering (year field). -/
def pad4 (n : Nat) : List Char :=
  [dChar (n / 1000 % 10), dChar (n / 100 % 10), dChar (n / 10 % 10), dChar (n % 10)]

/-- Civil date (year, month, day) from days since 1970-01-01, the standard
era-based algorithm used by JS engines for `toISOString`. -/
def civilFromDays (days : Nat) : Nat × Nat × Nat :=
  let z := days + 719468
  let era := z / 146097
  let doe := z % 146097
  let yoe := (doe - doe / 1460 + doe / 36524 - doe / 146096) / 365
  let y := yoe + era * 400
  let doy := doe - (365 * yoe + yoe / 4 - yoe / 100)
  let mp := (5 * doy + 2) / 153
  let d := doy - (153 * mp + 2) / 5 + 1
  let m := if mp < 10 then mp + 3 else mp - 9
  (if m ≤ 2 then y + 1 else y, m, d)

/-- The `YYYY-MM-DDTHH:mm:ss` part of `Date.prototype.toISOString` for epoch
millisecond `t` (UTC; modelled for years 1970-9999, the 4-digit-year range). -/
def isoBase (t : Nat) : List Char :=
  let s := t / 1000
  let secOfDay := s % 86400
  let ymd := civilFromDays (s / 86400)
  pad4 ymd.1 ++ '-' :: pad2 ymd.2.1 ++ '-' :: pad2 ymd.2.2 ++
    'T' :: pad2 (secOfDay / 3600) ++ ':' :: pad2 (secOfDay / 60 % 60) ++
    ':' :: pad2 (secOfDay % 60)

/-- `Date.prototype.toISOString` (external JS runtime, modelled for the
4-digit-year range): `YYYY-MM-DDTHH:mm:ss.sssZ`. -/
def toISOChars (t : Nat) : List Char :=
  isoBase t ++ '.' :: pad3 (t % 1000) ++ ['Z']

/-- Upper bound of the modelled `toISOString` range: first millisecond of
year 10000. -/
def isoMax : Nat := 253402300800000

/-- JS `String.prototype.endsWith("Z")` on the model strings. -/
def endsWithZ (s : List Char) : Bool :=
  match s.reverse with
  | c :: _ => c == 'Z'
  | [] => false

/-- JS `s.match(/[+-]\d{2}:\d{2}$/) !== null`: the string ends with an
explicit `+HH:MM` / `-HH:MM` offset. -/
def matchOffset (s : List Char) : Bool :=
  match s.reverse with
  | a :: b :: colon :: c :: d :: e :: _ =>
      a.isDigit && b.isDigit && colon == ':' && c.isDigit && d.isDigit &&
        (e == '+' || e == '-')
  | _ => false

/-- JS `String.prototype.replace` with a plain-string pattern: replaces the
first occurrence of `p` in `s` by `r` (identity when there is none). -/
def jsReplaceFirst (p r s : List Char) : List Char :=
  match s with
  | [] => if p = [] then r else []
  | c :: rest =>
      if p.isPrefixOf (c :: rest) then r ++ (c :: rest).drop p.length
      else c :: jsReplaceFirst p r rest

/-- JS `String.prototype.replace` with the regex `/\.\d{3}Z$/` and empty
replacement: drops a trailing `.dddZ` when present. -/
def stripMsZ (s : List Char) : List Char :=
  match s.reverse with
  | z :: d1 :: d2 :: d3 :: dot :: _ =>
      if z == 'Z' && d1.isDigit && d2.isDigit && d3.isDigit && dot == '.' then
        (s.reverse.drop 5).reverse
      else s
  | _ => s

/-- Reason attached to a failed validation (the i18n message strings are
abstracted to their distinguishing tag; boundary values are kept). -/
inductive VReason where
  | invalidFormat : VReason
  | futureDate : VReason
  | beforePrevious : Nat → VReason
  | afterNext : Nat → VReason
deriving DecidableEq, Repr

/-- `ValidationResult` of `src/types/index.ts`. -/
structure ValidationResult where
  isValid : Bool
  error : Option VReason
deriving DecidableEq, Repr

/-- `DateRange` of `src/types/index.ts`: `min` is `null` for "no limit". -/
structure DateRange where
  min : Option Nat
  max : Nat
deriving DecidableEq, Repr

/-- `DateValidator.validateISOFormat` (`src/core/validator.ts`).
`pISO` is the external `date-fns` `parseISO` + `isValid` pair, modelled as
one oracle returning `none` for an invalid parse (or a thrown error). -/
def validateISOFormat (pISO : List Char → Option Nat) (dateString : List Char) :
    ValidationResult :=
  match pISO dateString with
  | some _ => { isValid := true, error := none }
  | none => { isValid := false, error := some .invalidFormat }

/-- The string-preprocessing step of `DateValidator.parseDate`
(`src/core/validator.ts` lines 36-41): append `Z` when the string carries
neither a `Z` suffix nor an explicit `±HH:MM` offset. -/
def preprocessDate (dateString : List Char) : List Char :=
  if !endsWithZ dateString && !matchOffset dateString then dateString ++ ['Z']
  else dateString

/-- `DateValidator.parseDate` (`src/core/validator.ts`): parse as UTC by
handing the preprocessed string to `parseISO`; invalid parses become `none`. -/
def parseDate (pISO : List Char → Option Nat) (dateString : List Char) : Option Nat :=
  pISO (preprocessDate dateString)

/-- `DateValidator.getValidDateRange` (`src/core/validator.ts` lines 52-68);
`now` is the `new Date()` taken inside the function. -/
def getValidDateRange (now : Nat) (prevCommitDate nextCommitDate : Option Nat) :
    DateRange :=
  let max := match nextCommitDate with
    | some n => if n < now then n else now
    | none => now
  { min := prevCommitDate, max := max }

/-- `DateValidator.validateDate` (`src/core/validator.ts` lines 73-105);
`now` is the `new Date()` taken inside the function; `isAfter a b` is `a > b`
and `isBefore a b` is `a < b`. -/
def validateDate (now : Nat) (newDate : Nat)
    (prevCommitDate nextCommitDate : Option Nat) : ValidationResult :=
  if now < newDate then
    { isValid := false, error := some .futureDate }
  else
    match prevCommitDate with
    | some p =>
        if newDate < p then { isValid := false, error := some (.beforePrevious p) }
        else
          match nextCommitDate with
          | some n =>
              if n < newDate then { isValid := false, error := some (.afterNext n) }
              else { isValid := true, error := none }
          | none => { isValid := true, error := none }
    | none =>
        match nextCommitDate with
        | some n =>
            if n < newDate then { isValid := false, error := some (.afterNext n) }
            else { isValid := true, error := none }
        | none => { isValid := true, error := none }

namespace DateValidator

/-- `DateValidator.formatDate` as written in `src/core/validator.ts`:
`date.toISOString().replace('.000Z', '').replace('Z', '')` with JS
first-occurrence string replacement. -/
def formatDate (t : Nat) : List Char :=
  jsReplaceFirst ['.', '0', '0', '0', 'Z'] [] (toISOChars t) |>
    jsReplaceFirst ['Z'] []

end DateValidator

namespace DateValidatorI18n

/-- The duplicated `DateValidator.formatDate` embedded in the i18n copy
(`src/core/git.ts` companion document): `date.toISOString().replace(/\.\d{3}Z$/, "")`. -/
def formatDate (t : Nat) : List Char :=
  stripMsZ (toISOChars t)

end DateValidatorI18n

/-- One record of `git log` output as consumed by `GitService.parseCommit`
(`entry.date` is already converted to epoch milliseconds, as `new Date(entry.date)`
does in the source). -/
structure LogEntry where
  hash : List Char
  message : List Char
  date : Nat
  authorName : List Char
deriving DecidableEq, Repr

/-- `Commit` of `src/types/index.ts`. -/
structure Commit where
  hash : List Char
  fullHash : List Char
  message : List Char
  authorDate : Nat
  committerDate : Nat
  author : List Char
  isPushed : Bool
  remotes : List (List Char)
deriving DecidableEq, Repr

/-- Oracle model of the `git` subprocess interface used by `GitService`
(`src/core/git.ts`).  `branchesContaining h` is the list of trimmed,
non-empty lines printed by `git branch -r --contains h`; `logRecent n` is
`git log -n n`; `logRange u n` is `git log u..HEAD -n n`; `changeFails`
says whether the `git filter-branch` call throws. -/
structure GitEnv where
  upstream : Option (List Char)
  hasUncommitted : Bool
  logRecent : Nat → List LogEntry
  logRange : List Char → Nat → List LogEntry
  branchesContaining : List Char → List (List Char)
  changeFails : Bool

/-- `GitService.isCommitPushed`: true iff `git branch -r --contains` printed
anything. -/
def isCommitPushed (env : GitEnv) (commitHash : List Char) : Bool :=
  !(env.branchesContaining commitHash).isEmpty

/-- JS `line.includes("->")`: the two-character arrow occurs somewhere in the
line. -/
def containsArrow : List Char → Bool
  | '-' :: '>' :: _ => true
  | _ :: rest => containsArrow rest
  | [] => false

/-- `GitService.getCommitRemotes`: the containing remote branches, with
symbolic `->` lines filtered out. -/
def getCommitRemotes (env : GitEnv) (commitHash : List Char) : List (List Char) :=
  (env.branchesContaining commitHash).filter fun line => !containsArrow line

/-- `GitService.parseCommit` (`src/core/git.ts` lines 133-149). -/
def parseCommit (env : GitEnv) (entry : LogEntry) : Commit :=
  let pushed := isCommitPushed env entry.hash
  { hash := entry.hash.take 7
    fullHash := entry.hash
    message := entry.message
    authorDate := entry.date
    committerDate := entry.date
    author := entry.authorName
    isPushed := pushed
    remotes := if pushed then getCommitRemotes env entry.hash else [] }

/-- `GitService.getAllCommits` (`src/core/git.ts` lines 118-128). -/
def getAllCommits (env : GitEnv) (limit : Nat) : List Commit :=
  (env.logRecent limit).map (parseCommit env)

/-- The body of the accumulation loop in `GitService.getUnpushedCommits`:
parse the entry and append it only when `!commit.isPushed`. -/
def pushStep (env : GitEnv) (commits : List Commit) (entry : LogEntry) : List Commit :=
  let commit := parseCommit env entry
  if !commit.isPushed then commits ++ [commit] else commits

/-- `GitService.getUnpushedCommits` (`src/core/git.ts` lines 90-113),
including its accumulation loop that keeps only commits with
`!commit.isPushed`. -/
def getUnpushedCommits (env : GitEnv) (limit : Nat) : List Commit :=
  let entries := match env.upstream with
    | some remoteBranch => env.logRange remoteBranch limit
    | none => env.logRecent limit
  entries.foldl (pushStep env) []

/-- `getUnpushedCommits` as claim C7 describes it: with an upstream, the
commits in `upstream..HEAD`; without one, the most recent `limit` commits
regardless of push status.  Written from the claim's words for comparison
with the source translation. -/
def getUnpushedCommitsClaim (env : GitEnv) (limit : Nat) : List Commit :=
  match env.upstream with
  | some remoteBranch => (env.logRange remoteBranch limit).map (parseCommit env)
  | none => (env.logRecent limit).map (parseCommit env)

/-- The `errorCode` values appearing in structured results, across
`CliRunner` (`src/core/cli-runner.ts`) and the top-level `main`
(`src/cli.ts`). -/
inductive ErrorCode where
  | INVALID_DATE_FORMAT
  | COMMIT_NOT_FOUND
  | PUSHED_REQUIRES_CONFIRM
  | DATE_PARSING_ERROR
  | DATE_OUT_OF_RANGE
  | EXECUTION_ERROR
  | UNCOMMITTED_CHANGES
  | MISSING_REQUIRED_OPTIONS
deriving DecidableEq, Repr

/-- The `commit` payload of a successful `CliModeResult`. -/
structure CommitInfo where
  hash : List Char
  message : List Char
  oldDate : List Char
  newDate : List Char
  isPushed : Bool
deriving DecidableEq, Repr

/-- `CliModeResult` of `src/core/cli-runner.ts` (the human-readable `error`
message string is abstracted away; `errorCode` is kept). -/
structure CliModeResult where
  success : Bool
  commit : Option CommitInfo
  errorCode : Option ErrorCode
deriving DecidableEq, Repr

/-- `CliModeOptions` of `src/core/cli-runner.ts`. -/
structure CliModeOptions where
  hash : List Char
  date : List Char
  noConfirm : Bool
  json : Bool
  allowPushed : Bool
deriving DecidableEq, Repr

/-- Full environment for a CLI run: the git oracle, the `date-fns`
`parseISO`+`isValid` oracle, and the clock (`new Date()`). -/
structure CliEnv where
  git : GitEnv
  parseISO : List Char → Option Nat
  now : Nat

/-- Distinguishes the two throw sites reachable from
`DateChanger.validateAndChange` (`src/core/date-changer.ts`). -/
inductive ChangeError where
  | validationFailed : ChangeError
  | gitFailure : ChangeError
deriving DecidableEq, Repr

/-- `GitService.changeCommitDate` (`src/core/git.ts` lines 157-193) as seen
by the caller: exactly one mutating `git filter-branch` invocation (counted
in the second component), throwing iff the oracle says so.  The best-effort
backup-ref cleanup swallows its own errors and is not a history mutation. -/
def changeCommitDateGit (env : GitEnv) : Except ChangeError Unit × Nat :=
  if env.changeFails then (Except.error .gitFailure, 1) else (Except.ok (), 1)

/-- `DateChanger.validateAndChange` (`src/core/date-changer.ts` lines 30-49):
re-validate, throw on failure, otherwise perform the mutation.  The second
component counts mutating git calls. -/
def validateAndChange (env : CliEnv) (newDate : Nat)
    (prevCommitDate nextCommitDate : Option Nat) : Except ChangeError Unit × Nat :=
  let validation := validateDate env.now newDate prevCommitDate nextCommitDate
  if validation.isValid then changeCommitDateGit env.git
  else (Except.error .validationFailed, 0)

/-- `CliRunner.findCommitByHash` (`src/core/cli-runner.ts` lines 47-56). -/
def findCommitByHash (env : GitEnv) (hash : List Char) (allowPushed : Bool) :
    Option Commit :=
  let commits := if allowPushed then getAllCommits env 100 else getUnpushedCommits env 100
  commits.find? fun c =>
    c.hash == hash || c.fullHash == hash || hash.isPrefixOf c.fullHash

/-- `CliRunner.validateInputs` (`src/core/cli-runner.ts` lines 61-73). -/
def validateInputs (env : CliEnv) (options : CliModeOptions) : Option CliModeResult :=
  let formatValidation := validateISOFormat env.parseISO options.date
  if !formatValidation.isValid then
    some { success := false, commit := none, errorCode := some .INVALID_DATE_FORMAT }
  else none

/-- JS `Array.prototype.findIndex`: position of the first commit with the
given short hash, `-1` when absent. -/
def jsFindIndex (allCommits : List Commit) (commitHash : List Char) : Int :=
  match allCommits.findIdx? (fun c => c.hash == commitHash) with
  | some i => (i : Int)
  | none => -1

/-- The neighbor computation shared by `CliRunner.execute` and the
interactive loop: `prev` is the next-older listed commit, `next` the
next-newer one, with the JS `findIndex` returning `-1` when absent. -/
def neighborDates (allCommits : List Commit) (commitHash : List Char) :
    Option Nat × Option Nat :=
  let commitIndex := jsFindIndex allCommits commitHash
  let prevCommit := if commitIndex < (allCommits.length : Int) - 1 then
      allCommits.get? (commitIndex + 1).toNat
    else none
  let nextCommit := if (0 : Int) < commitIndex then allCommits.get? (commitIndex - 1).toNat
    else none
  (prevCommit.map (·.authorDate), nextCommit.map (·.authorDate))

/-- `CliRunner.execute` (`src/core/cli-runner.ts` lines 78-161).  Returns the
structured result together with the number of mutating git calls made during
the run (the `catch` block turns any thrown error into `EXECUTION_ERROR`). -/
def execute (env : CliEnv) (options : CliModeOptions) : CliModeResult × Nat :=
  match validateInputs env options with
  | some validationError => (validationError, 0)
  | none =>
    match findCommitByHash env.git options.hash options.allowPushed with
    | none => ({ success := false, commit := none, errorCode := some .COMMIT_NOT_FOUND }, 0)
    | some commit =>
      if commit.isPushed && !options.noConfirm then
        ({ success := false, commit := none, errorCode := some .PUSHED_REQUIRES_CONFIRM }, 0)
      else
        match parseDate env.parseISO options.date with
        | none => ({ success := false, commit := none, errorCode := some .DATE_PARSING_ERROR }, 0)
        | some newDate =>
          let allCommits := if options.allowPushed then getAllCommits env.git 100
            else getUnpushedCommits env.git 100
          let nbrs := neighborDates allCommits commit.hash
          let rangeValidation := validateDate env.now newDate nbrs.1 nbrs.2
          if !rangeValidation.isValid then
            ({ success := false, commit := none, errorCode := some .DATE_OUT_OF_RANGE }, 0)
          else
            match validateAndChange env newDate nbrs.1 nbrs.2 with
            | (Except.ok _, muts) =>
                ({ success := true
                   commit := some
                     { hash := commit.hash
                       message := commit.message
                       oldDate := toISOChars commit.authorDate
                       newDate := toISOChars newDate
                       isPushed := commit.isPushed }
                   errorCode := none }, muts)
            | (Except.error _, muts) =>
                ({ success := false, commit := none, errorCode := some .EXECUTION_ERROR }, muts)

/-- The flags of `main` (`src/cli.ts`) that decide its non-interactive
behavior; `confirm := false` is what commander produces for `--no-confirm`. -/
structure MainOptions where
  allowPushed : Bool
  all : Bool
  hashOpt : Option (List Char)
  dateOpt : Option (List Char)
  confirm : Bool
  json : Bool
deriving Repr

/-- The structured (JSON-shaped) result a non-interactive `main` run emits
(`src/cli.ts` lines 64-111): the dirty-working-tree stop and the
missing-option stop produce a JSON object only under `--json`; CLI mode
always builds a `CliModeResult` (rendered as JSON or as text). `none` means
no structured result is produced on that path. -/
def mainStructuredResult (env : CliEnv) (options : MainOptions) :
    Option CliModeResult :=
  if env.git.hasUncommitted then
    if options.json then
      some { success := false, commit := none, errorCode := some .UNCOMMITTED_CHANGES }
    else none
  else
    match options.hashOpt, options.dateOpt with
    | some h, some d =>
        some (execute env
          { hash := h, date := d, noConfirm := !options.confirm,
            json := options.json, allowPushed := options.allowPushed || options.all }).1
    | some _, none =>
        if options.json then
          some { success := false, commit := none, errorCode := some .MISSING_REQUIRED_OPTIONS }
        else none
    | none, some _ =>
        if options.json then
          some { success := false, commit := none, errorCode := some .MISSING_REQUIRED_OPTIONS }
        else none
    | none, none => none

/-- One iteration of the interactive loop of `main` (`src/cli.ts` lines
144-216), from commit selection to the optional mutation; returns the number
of mutating git calls the iteration makes.  `newDate` is the prompt's parsed
answer and `confirmed` the user's confirmation. -/
def interactiveCycle (env : CliEnv) (commits : List Commit) (selectedCommit : Commit)
    (newDate : Nat) (confirmed : Bool) : Nat :=
  let nbrs := neighborDates commits selectedCommit.hash
  let oldDateStr := (toISOChars selectedCommit.authorDate).take 16
  let newDateStr := (toISOChars newDate).take 16
  if newDateStr == oldDateStr then 0
  else if !confirmed then 0
  else (validateAndChange env newDate nbrs.1 nbrs.2).2

/-- C2: `validateDate` applies its checks in order with the future check
first — a candidate strictly after `now` is rejected with the future-date
reason regardless of the neighbor bounds, and a candidate not after `now`
is never rejected with the future-date reason. -/
theorem c2_future_check_first (now newDate : Nat)
    (prevCommitDate nextCommitDate : Option Nat) :
    (now < newDate →
      validateDate now newDate prevCommitDate nextCommitDate =
        { isValid := false, error := some .futureDate }) ∧
    (¬ now < newDate →
      (validateDate now newDate prevCommitDate nextCommitDate).error ≠
        some VReason.futureDate) := by
  constructor
  · intro h
    simp [validateDate, h]
  · intro h
    cases prevCommitDate <;> cases nextCommitDate <;>
      simp [validateDate, h] <;> split_ifs <;> simp

/-- Witness for C2 at concrete inputs: `now = 5`, candidate `10` is in the
future and rejected with the future-date reason even with tight neighbor
bounds, while with `now = 10` the candidate `5` is never rejected as
future. -/
theorem c2_future_check_first_witness :
    validateDate 5 10 (some 0) (some 20) =
      { isValid := false, error := some .futureDate } ∧
    (validateDate 10 5 (some 0) (some 20)).error ≠ some VReason.futureDate :=
  ⟨(c2_future_check_first 5 10 (some 0) (some 20)).1 (by decide),
   (c2_future_check_first 10 5 (some 0) (some 20)).2 (by decide)⟩

/-- C3: `validateDate` accepts the closed interval — a candidate `c ≤ now`
that is at or above the previous timestamp (when present) and at or below
the next timestamp (when present) is valid; in particular boundary equality
is accepted. -/
theorem c3_closed_interval (now c : Nat) (p n : Option Nat)
    (hnow : c ≤ now)
    (hp : ∀ x, p = some x → x ≤ c)
    (hn : ∀ y, n = some y → c ≤ y) :
    validateDate now c p n = { isValid := true, error := none } := by
  have h1 : ¬ now < c := Nat.not_lt.mpr hnow
  cases p with
  | none =>
      cases n with
      | none => simp [validateDate, h1]
      | some y =>
          have := hn y rfl
          simp [validateDate, h1, Nat.not_lt.mpr this]
  | some x =>
      have hx := hp x rfl
      cases n with
      | none => simp [validateDate, h1, Nat.not_lt.mpr hx]
      | some y =>
          have hy := hn y rfl
          simp [validateDate, h1, Nat.not_lt.mpr hx, Nat.not_lt.mpr hy]

/-- Witness for C3 at boundary equality: candidate `5` with previous
timestamp `5` and next timestamp `5` is accepted. -/
theorem c3_closed_interval_witness :
    validateDate 10 5 (some 5) (some 5) = { isValid := true, error := none } :=
  c3_closed_interval 10 5 (some 5) (some 5) (by decide)
    (fun x hx => by injection hx with h; omega)
    (fun y hy => by injection hy with h; omega)

/-- C4: `getValidDateRange` returns the window whose lower bound is exactly
the previous timestamp (`none` when absent) and whose upper bound is `now`,
except that it is the next timestamp when that is strictly earlier than
`now` — equivalently, `min now next` when a next timestamp exists. -/
theorem c4_valid_date_range (now : Nat) (p n : Option Nat) :
    getValidDateRange now p n =
      { min := p
        max := match n with
          | some x => min now x
          | none => now } := by
  cases n with
  | none => simp [getValidDateRange]
  | some x =>
      simp only [getValidDateRange, DateRange.mk.injEq, true_and]
      rw [Nat.min_def]
      split <;> split <;> omega

/-- C8: `parseDate` always hands `parseISO` a string carrying an explicit
UTC marker or offset (never a local-time interpretation): with a `Z` suffix
or an explicit offset, the string goes through unmodified; otherwise a `Z`
is appended; and a failed parse yields `none` rather than an exception. -/
theorem c8_parse_utc (pISO : List Char → Option Nat) (s : List Char) :
    (endsWithZ (preprocessDate s) || matchOffset (preprocessDate s)) = true ∧
    ((endsWithZ s || matchOffset s) = true → parseDate pISO s = pISO s) ∧
    ((endsWithZ s || matchOffset s) = false →
      parseDate pISO s = pISO (s ++ ['Z'])) ∧
    (pISO (preprocessDate s) = none → parseDate pISO s = none) := by
  refine ⟨?_, ?_, ?_, ?_⟩
  · unfold preprocessDate
    split
    case isTrue h =>
      have : endsWithZ (s ++ ['Z']) = true := by
        simp [endsWithZ, List.reverse_append]
      simp [this]
    case isFalse h =>
      simp only [Bool.and_eq_true, Bool.not_eq_eq_eq_not, Bool.not_true, not_and,
        Bool.not_eq_false] at h
      rcases hz : endsWithZ s with _ | _
      · simp [h hz]
      · simp
  · intro h
    unfold parseDate preprocessDate
    rcases Bool.or_eq_true_iff.mp h with h1 | h1 <;> simp [h1]
  · intro h
    rcases Bool.or_eq_false_iff.mp h with ⟨h1, h2⟩
    unfold parseDate preprocessDate
    simp [h1, h2]
  · intro h
    unfold parseDate
    exact h

/-- Witness for C8: a date-and-time string with no offset and no `Z` is
parsed as its `Z`-suffixed (UTC) form. -/
theorem c8_parse_utc_witness :
    parseDate (fun l => if l = ['2', '0', '2', '0', 'Z'] then some 7 else none)
        ['2', '0', '2', '0'] =
      (fun l => if l = ['2', '0', '2', '0', 'Z'] then some 7 else none)
        (['2', '0', '2', '0'] ++ ['Z']) :=
  (c8_parse_utc (fun l => if l = ['2', '0', '2', '0', 'Z'] then some 7 else none)
    ['2', '0', '2', '0']).2.2.1 (by decide)

/-- The accumulation loop of `getUnpushedCommits` is the filter of the
parsed entries that keeps exactly the commits with `isPushed = false`. -/
theorem foldl_unpushed_eq_filter (env : GitEnv) (entries : List LogEntry)
    (acc : List Commit) :
    entries.foldl (pushStep env) acc =
    acc ++ (entries.map (parseCommit env)).filter (fun c => !c.isPushed) := by
  induction entries generalizing acc with
  | nil => simp
  | cons e rest ih =>
      rw [List.foldl_cons, ih]
      by_cases h : (parseCommit env e).isPushed
      · simp [pushStep, h]
      · simp [pushStep, h]

/-- A repository state with no upstream tracking branch whose single recent
commit is contained in a remote branch (so `isPushed = true`). -/
def pushedNoUpstreamEnv : GitEnv :=
  { upstream := none
    hasUncommitted := false
    logRecent := fun _ =>
      [{ hash := ['a', 'b', 'c', '1', '2', '3', '4', '5'], message := ['m'],
         date := 1000, authorName := ['t'] }]
    logRange := fun _ _ => []
    branchesContaining := fun _ => [['o', '/', 'm']]
    changeFails := false }

/-- Counterexample for C7: with no upstream, `getUnpushedCommits` does NOT
return the most recent `limit` commits regardless of push status — a pushed
commit among them is dropped by the `!commit.isPushed` filter. -/
theorem c7_counterexample :
    getUnpushedCommits pushedNoUpstreamEnv 10 ≠
      getUnpushedCommitsClaim pushedNoUpstreamEnv 10 := by
  decide

/-- C7 as amended: for every limit, `getUnpushedCommits` scopes the listing
to `upstream..HEAD` when an upstream exists and to the most recent `limit`
commits otherwise, and then returns only the commits of that listing that
are not reachable from any remote branch (`isPushed = false`). -/
theorem c7_unpushed_scope_and_filter (env : GitEnv) (limit : Nat) :
    getUnpushedCommits env limit =
      ((match env.upstream with
        | some remoteBranch => env.logRange remoteBranch limit
        | none => env.logRecent limit).map (parseCommit env)).filter
        (fun c => !c.isPushed) := by
  unfold getUnpushedCommits
  cases env.upstream <;>
    simpa using foldl_unpushed_eq_filter env _ []

/-- The five pre-mutation error codes of claim C1. -/
def preMutationCodes : List ErrorCode :=
  [.INVALID_DATE_FORMAT, .COMMIT_NOT_FOUND, .PUSHED_REQUIRES_CONFIRM,
   .DATE_PARSING_ERROR, .DATE_OUT_OF_RANGE]

/-- C1: a non-interactive `CliRunner.execute` run that fails with
`INVALID_DATE_FORMAT`, `COMMIT_NOT_FOUND`, `PUSHED_REQUIRES_CONFIRM`,
`DATE_PARSING_ERROR` or `DATE_OUT_OF_RANGE` makes zero mutating git calls;
in particular, a found pushed commit without the `--no-confirm` override
(given a well-formed date) yields exactly the `PUSHED_REQUIRES_CONFIRM`
failure and an unchanged repository. -/
theorem c1_no_mutation_before_errors (env : CliEnv) (options : CliModeOptions) :
    (∀ res muts code, execute env options = (res, muts) →
      res.errorCode = some code → code ∈ preMutationCodes → muts = 0) ∧
    (∀ commit, (validateISOFormat env.parseISO options.date).isValid = true →
      findCommitByHash env.git options.hash options.allowPushed = some commit →
      commit.isPushed = true → options.noConfirm = false →
      execute env options =
        ({ success := false, commit := none,
           errorCode := some .PUSHED_REQUIRES_CONFIRM }, 0)) := by
  constructor
  · intro res muts code hE hcode hmem
    simp only [execute, validateInputs] at hE
    repeat' split at hE
    all_goals (rw [Prod.mk.injEq] at hE; obtain ⟨h1, h2⟩ := hE; subst h1; subst h2)
    all_goals simp_all [preMutationCodes]
    all_goals (subst hcode; exact absurd hmem (by decide))
  · intro commit hv hfind hpush hnc
    simp [execute, validateInputs, hv, hfind, hpush, hnc]

/-- A log entry for the concrete scenarios below. -/
def sampleEntry : LogEntry :=
  { hash := ['a', 'b', 'c', '1', '2', '3', '4', '5', '6'], message := ['m'],
    date := 86400000, authorName := ['t'] }

/-- A repository state whose single commit is pushed (contained in the
remote branch `o/m`). -/
def pushedEnv : CliEnv :=
  { git := { upstream := none, hasUncommitted := false,
             logRecent := fun _ => [sampleEntry], logRange := fun _ _ => [],
             branchesContaining := fun _ => [['o', '/', 'm']],
             changeFails := false }
    parseISO := fun _ => some 86400000
    now := 200000000 }

/-- Non-interactive options targeting the pushed commit without the
`--no-confirm` override. -/
def pushedOpts : CliModeOptions :=
  { hash := ['a', 'b', 'c', '1', '2', '3', '4'], date := ['x'],
    noConfirm := false, json := false, allowPushed := true }

/-- The parsed form of `sampleEntry` in `pushedEnv`. -/
def pushedCommitVal : Commit :=
  { hash := ['a', 'b', 'c', '1', '2', '3', '4']
    fullHash := ['a', 'b', 'c', '1', '2', '3', '4', '5', '6']
    message := ['m']
    authorDate := 86400000
    committerDate := 86400000
    author := ['t']
    isPushed := true
    remotes := [['o', '/', 'm']] }

/-- Witness for C1 (scenario C): on the concrete pushed-commit repository,
`execute` without override returns the `PUSHED_REQUIRES_CONFIRM` failure and
makes zero mutating calls. -/
theorem c1_no_mutation_before_errors_witness :
    execute pushedEnv pushedOpts =
      ({ success := false, commit := none,
         errorCode := some .PUSHED_REQUIRES_CONFIRM }, 0) ∧
    (execute pushedEnv pushedOpts).2 = 0 := by
  have h2 := (c1_no_mutation_before_errors pushedEnv pushedOpts).2 pushedCommitVal
    (by decide) (by decide) (by decide) (by decide)
  have h1 := (c1_no_mutation_before_errors pushedEnv pushedOpts).1
    { success := false, commit := none, errorCode := some .PUSHED_REQUIRES_CONFIRM } 0
    .PUSHED_REQUIRES_CONFIRM h2 (by decide) (by decide)
  exact ⟨h2, by rw [h2]⟩

/-- The six error codes of the structured-result contract in the spec. -/
def cliErrorCodes : List ErrorCode :=
  [.INVALID_DATE_FORMAT, .COMMIT_NOT_FOUND, .PUSHED_REQUIRES_CONFIRM,
   .DATE_PARSING_ERROR, .DATE_OUT_OF_RANGE, .EXECUTION_ERROR]

/-- A dirty working tree together with non-interactive JSON options: `main`
stops before CLI mode and emits a structured `UNCOMMITTED_CHANGES` result. -/
def dirtyEnv : CliEnv :=
  { git := { upstream := none, hasUncommitted := true,
             logRecent := fun _ => [sampleEntry], logRange := fun _ _ => [],
             branchesContaining := fun _ => [], changeFails := false }
    parseISO := fun _ => some 86400000
    now := 200000000 }

/-- `--hash --date --json` flags for the dirty-tree scenario. -/
def dirtyOpts : MainOptions :=
  { allowPushed := false, all := false,
    hashOpt := some ['a', 'b', 'c', '1', '2', '3', '4'],
    dateOpt := some ['x'], confirm := true, json := true }

/-- Counterexample for C6: a non-interactive invocation with a dirty working
tree emits a structured result whose `errorCode` is `UNCOMMITTED_CHANGES`,
which is none of the six listed codes. -/
theorem c6_counterexample :
    mainStructuredResult dirtyEnv dirtyOpts =
      some { success := false, commit := none,
             errorCode := some .UNCOMMITTED_CHANGES } ∧
    ErrorCode.UNCOMMITTED_CHANGES ∉ cliErrorCodes := by
  decide

/-- C6 as amended: `CliRunner.execute` itself only ever emits the six codes
`INVALID_DATE_FORMAT`, `COMMIT_NOT_FOUND`, `PUSHED_REQUIRES_CONFIRM`,
`DATE_PARSING_ERROR`, `DATE_OUT_OF_RANGE`, `EXECUTION_ERROR`; the top-level
non-interactive CLI additionally emits `UNCOMMITTED_CHANGES` and
`MISSING_REQUIRED_OPTIONS` structured results before reaching `execute`. -/
theorem c6_execute_codes (env : CliEnv) (options : CliModeOptions) :
    ∀ res muts code, execute env options = (res, muts) →
      res.errorCode = some code → code ∈ cliErrorCodes := by
  intro res muts code hE hcode
  simp only [execute, validateInputs] at hE
  repeat' split at hE
  all_goals (rw [Prod.mk.injEq] at hE; obtain ⟨h1, h2⟩ := hE; subst h1; subst h2)
  all_goals simp_all [cliErrorCodes]
  all_goals (rename_i hval; obtain ⟨h3, h4⟩ := hval; subst h4; simp_all)

/-- A repository state with no commits at all. -/
def emptyRepoEnv : CliEnv :=
  { git := { upstream := none, hasUncommitted := false,
             logRecent := fun _ => [], logRange := fun _ _ => [],
             branchesContaining := fun _ => [], changeFails := false }
    parseISO := fun _ => some 0
    now := 200000000 }

/-- Witness for C6: on an empty repository the concrete run fails with
`COMMIT_NOT_FOUND`, which is among the six codes. -/
theorem c6_execute_codes_witness :
    ErrorCode.COMMIT_NOT_FOUND ∈ cliErrorCodes :=
  c6_execute_codes emptyRepoEnv
    { hash := ['a'], date := ['x'], noConfirm := false, json := false,
      allowPushed := false }
    { success := false, commit := none, errorCode := some .COMMIT_NOT_FOUND } 0
    .COMMIT_NOT_FOUND (by decide) (by decide)

/-- A repository state whose single commit (authored at epoch ms 86400000)
is unpushed, with a parser oracle mapping the request date string to that
same instant. -/
def unpushedEnv : CliEnv :=
  { git := { upstream := none, hasUncommitted := false,
             logRecent := fun _ => [sampleEntry], logRange := fun _ _ => [],
             branchesContaining := fun _ => [], changeFails := false }
    parseISO := fun _ => some 86400000
    now := 200000000 }

/-- Non-interactive options requesting, for that commit, a new date that
parses to exactly its current authored date. -/
def noopOpts : CliModeOptions :=
  { hash := ['a', 'b', 'c', '1', '2', '3', '4'],
    date := ['1', '9', '7', '0', '-', '0', '1', '-', '0', '2', 'T', '0', '0',
             ':', '0', '0'],
    noConfirm := false, json := false, allowPushed := false }

/-- Counterexample for C5: in the non-interactive `CliRunner.execute` the
requested date parses to exactly the target commit's authored date (hence is
equal at minute granularity), yet one mutating call is made — `execute` has
no no-op short-circuit. -/
theorem c5_counterexample :
    parseDate unpushedEnv.parseISO noopOpts.date = some 86400000 ∧
    (findCommitByHash unpushedEnv.git noopOpts.hash noopOpts.allowPushed).map
      (fun c => c.authorDate) = some 86400000 ∧
    (execute unpushedEnv noopOpts).2 = 1 := by
  decide

/-- C5 as amended: in the interactive loop, a requested new date equal to
the selected commit's current authored date at minute granularity
(`toISOString().substring(0, 16)` comparison) makes zero mutating calls;
the non-interactive `CliRunner.execute` has no such short-circuit. -/
theorem c5_interactive_noop (env : CliEnv) (commits : List Commit)
    (selectedCommit : Commit) (newDate : Nat) (confirmed : Bool)
    (h : (toISOChars newDate).take 16 =
      (toISOChars selectedCommit.authorDate).take 16) :
    interactiveCycle env commits selectedCommit newDate confirmed = 0 := by
  simp [interactiveCycle, h]

/-- Witness for the amended C5: requesting the commit's own authored date in
an interactive cycle makes zero mutating calls. -/
theorem c5_interactive_noop_witness :
    interactiveCycle unpushedEnv [] pushedCommitVal 86400000 true = 0 :=
  c5_interactive_noop unpushedEnv [] pushedCommitVal 86400000 true (by decide)

/-- Every `dChar` value is a decimal digit character. -/
theorem dChar_isDigit (d : Nat) : (dChar d).isDigit = true := by
  unfold dChar
  split <;> decide

/-- A `dChar` value never equals a non-digit character. -/
theorem dChar_ne_of_not_digit (d : Nat) (c : Char) (hc : ¬ c.isDigit = true) :
    dChar d ≠ c := by
  unfold dChar
  split <;> (rintro rfl; exact hc (by decide))

/-- For a one-digit argument, `dChar` is `'0'` exactly on `0`. -/
theorem dChar_eq_zero_iff (d : Nat) (hd : d < 10) : dChar d = '0' ↔ d = 0 := by
  unfold dChar
  split <;> simp_all

/-- All characters of `pad2` are digits. -/
theorem pad2_digits (n : Nat) : ∀ c ∈ pad2 n, c.isDigit = true := by
  intro c hc
  simp only [pad2, List.mem_cons, List.not_mem_nil, or_false] at hc
  rcases hc with rfl | rfl <;> exact dChar_isDigit _

/-- All characters of `pad3` are digits. -/
theorem pad3_digits (n : Nat) : ∀ c ∈ pad3 n, c.isDigit = true := by
  intro c hc
  simp only [pad3, List.mem_cons, List.not_mem_nil, or_false] at hc
  rcases hc with rfl | rfl | rfl <;> exact dChar_isDigit _

/-- All characters of `pad4` are digits. -/
theorem pad4_digits (n : Nat) : ∀ c ∈ pad4 n, c.isDigit = true := by
  intro c hc
  simp only [pad4, List.mem_cons, List.not_mem_nil, or_false] at hc
  rcases hc with rfl | rfl | rfl | rfl <;> exact dChar_isDigit _

/-- Every character of the `YYYY-MM-DDTHH:mm:ss` rendering is a digit or one
of the three punctuation marks `-`, `T`, `:`. -/
theorem isoBase_chars (t : Nat) :
    ∀ c ∈ isoBase t, c.isDigit = true ∨ c = '-' ∨ c = 'T' ∨ c = ':' := by
  simp only [isoBase]
  refine List.forall_mem_append.mpr
    ⟨List.forall_mem_append.mpr
      ⟨List.forall_mem_append.mpr
        ⟨List.forall_mem_append.mpr
          ⟨List.forall_mem_append.mpr ⟨?_, ?_⟩, ?_⟩, ?_⟩, ?_⟩, ?_⟩
  · intro c hc
    exact Or.inl (pad4_digits _ c hc)
  · intro c hc
    rcases List.mem_cons.mp hc with rfl | h
    · simp
    · exact Or.inl (pad2_digits _ c h)
  · intro c hc
    rcases List.mem_cons.mp hc with rfl | h
    · simp
    · exact Or.inl (pad2_digits _ c h)
  · intro c hc
    rcases List.mem_cons.mp hc with rfl | h
    · simp
    · exact Or.inl (pad2_digits _ c h)
  · intro c hc
    rcases List.mem_cons.mp hc with rfl | h
    · simp
    · exact Or.inl (pad2_digits _ c h)
  · intro c hc
    rcases List.mem_cons.mp hc with rfl | h
    · simp
    · exact Or.inl (pad2_digits _ c h)

/-- The dot never occurs in the `YYYY-MM-DDTHH:mm:ss` part. -/
theorem dot_not_mem_isoBase (t : Nat) : '.' ∉ isoBase t := by
  intro hmem
  rcases isoBase_chars t '.' hmem with h | h | h | h <;> simp_all

/-- The UTC marker never occurs in the `YYYY-MM-DDTHH:mm:ss` part. -/
theorem z_not_mem_isoBase (t : Nat) : 'Z' ∉ isoBase t := by
  intro hmem
  rcases isoBase_chars t 'Z' hmem with h | h | h | h <;> simp_all

/-- JS first-occurrence replacement skips a region that does not contain the
pattern's first character. -/
theorem jsReplaceFirst_append_left (p0 : Char) (ps r suf : List Char)
    (pre : List Char) (h : p0 ∉ pre) :
    jsReplaceFirst (p0 :: ps) r (pre ++ suf) =
      pre ++ jsReplaceFirst (p0 :: ps) r suf := by
  induction pre with
  | nil => simp
  | cons c cs ih =>
      simp only [List.mem_cons, not_or] at h
      obtain ⟨h1, h2⟩ := h
      simp only [List.cons_append, jsReplaceFirst, List.isPrefixOf]
      have hbeq : (p0 == c) = false := by
        simp [beq_eq_false_iff_ne, h1]
      simp [hbeq, ih h2]

/-- JS first-occurrence replacement is the identity when the pattern's first
character does not occur at all. -/
theorem jsReplaceFirst_no_occurrence (p0 : Char) (ps r s : List Char)
    (h : p0 ∉ s) : jsReplaceFirst (p0 :: ps) r s = s := by
  have := jsReplaceFirst_append_left p0 ps r [] s h
  simpa [jsReplaceFirst] using this

/-- A list is a prefix (in the `Bool` sense) of itself followed by anything. -/
theorem isPrefixOf_append_self (l t : List Char) : l.isPrefixOf (l ++ t) = true := by
  induction l with
  | nil => simp [List.isPrefixOf]
  | cons c cs ih => simp [List.isPrefixOf, ih]

/-- JS first-occurrence replacement when the pattern matches right away. -/
theorem jsReplaceFirst_of_prefixMatch (p0 : Char) (ps r s : List Char)
    (h : (p0 :: ps).isPrefixOf s = true) :
    jsReplaceFirst (p0 :: ps) r s = r ++ s.drop (p0 :: ps).length := by
  cases s with
  | nil => simp [List.isPrefixOf] at h
  | cons c rest => simp [jsReplaceFirst, h]

/-- JS first-occurrence replacement at an immediate match. -/
theorem jsReplaceFirst_at_match (p0 : Char) (ps r rest : List Char) :
    jsReplaceFirst (p0 :: ps) r ((p0 :: ps) ++ rest) = r ++ rest := by
  rw [jsReplaceFirst_of_prefixMatch p0 ps r _ (isPrefixOf_append_self (p0 :: ps) rest),
    List.drop_left]

/-- The regex `/\.\d{3}Z$/` replacement drops exactly a trailing
dot-three-digits-`Z` suffix. -/
theorem stripMsZ_append_digits (base : List Char) (d1 d2 d3 : Char)
    (h1 : d1.isDigit = true) (h2 : d2.isDigit = true) (h3 : d3.isDigit = true) :
    stripMsZ (base ++ '.' :: [d1, d2, d3] ++ ['Z']) = base := by
  have hrev : (base ++ '.' :: [d1, d2, d3] ++ ['Z']).reverse =
      'Z' :: d3 :: d2 :: d1 :: '.' :: base.reverse := by
    simp
  unfold stripMsZ
  rw [hrev]
  simp [h1, h2, h3]

/-- `pad3` is `"000"` exactly when its (sub-1000) argument is zero. -/
theorem pad3_eq_zeros_iff (n : Nat) (hn : n < 1000) :
    pad3 n = ['0', '0', '0'] ↔ n = 0 := by
  simp only [pad3, List.cons.injEq, and_true]
  rw [dChar_eq_zero_iff _ (Nat.mod_lt _ (by omega)),
    dChar_eq_zero_iff _ (Nat.mod_lt _ (by omega)),
    dChar_eq_zero_iff _ (Nat.mod_lt _ (by omega))]
  omega

/-- The i18n copy of `formatDate` always strips the trailing `.sssZ`. -/
theorem formatDateI18n_strips (t : Nat) :
    DateValidatorI18n.formatDate t = isoBase t := by
  simp only [DateValidatorI18n.formatDate, toISOChars, pad3]
  exact stripMsZ_append_digits (isoBase t) _ _ _
    (dChar_isDigit _) (dChar_isDigit _) (dChar_isDigit _)

/-- With a zero milliseconds field the validator.ts copy of `formatDate`
strips both the fractional part and the UTC marker. -/
theorem formatDate_msZero (t : Nat) (h : t % 1000 = 0) :
    DateValidator.formatDate t = isoBase t := by
  simp only [DateValidator.formatDate, toISOChars, h]
  rw [show pad3 0 = ['0', '0', '0'] from rfl, List.append_assoc]
  rw [show ('.' :: ['0', '0', '0']) ++ ['Z'] = ['.', '0', '0', '0', 'Z'] from rfl]
  rw [jsReplaceFirst_append_left '.' ['0', '0', '0', 'Z'] [] _ _
    (dot_not_mem_isoBase t)]
  rw [show jsReplaceFirst ['.', '0', '0', '0', 'Z'] [] ['.', '0', '0', '0', 'Z']
    = [] from by decide]
  rw [List.append_nil]
  exact jsReplaceFirst_no_occurrence 'Z' [] [] _ (z_not_mem_isoBase t)

/-- With a nonzero milliseconds field the validator.ts copy of `formatDate`
keeps the fractional part and only strips the UTC marker. -/
theorem formatDate_msNonzero (t : Nat) (h : t % 1000 ≠ 0) :
    DateValidator.formatDate t = isoBase t ++ '.' :: pad3 (t % 1000) := by
  have hms : t % 1000 < 1000 := Nat.mod_lt _ (by omega)
  have hne : ¬(dChar (t % 1000 / 100 % 10) = '0' ∧ dChar (t % 1000 / 10 % 10) = '0' ∧
      dChar (t % 1000 % 10) = '0') := by
    rw [dChar_eq_zero_iff _ (Nat.mod_lt _ (by omega)),
      dChar_eq_zero_iff _ (Nat.mod_lt _ (by omega)),
      dChar_eq_zero_iff _ (Nat.mod_lt _ (by omega))]
    omega
  have hdot2 : '.' ∉ pad3 (t % 1000) ++ ['Z'] := by
    intro hm
    rcases List.mem_append.mp hm with hm | hm
    · have := pad3_digits _ _ hm
      simp at this
    · simp at hm
  have hzpre : 'Z' ∉ isoBase t ++ '.' :: pad3 (t % 1000) := by
    intro hm
    rcases List.mem_append.mp hm with hm | hm
    · exact z_not_mem_isoBase t hm
    · rcases List.mem_cons.mp hm with hm | hm
      · simp at hm
      · have := pad3_digits _ _ hm
        simp at this
  simp only [DateValidator.formatDate, toISOChars]
  rw [List.append_assoc, List.cons_append]
  rw [jsReplaceFirst_append_left '.' ['0', '0', '0', 'Z'] [] _ _
    (dot_not_mem_isoBase t)]
  have hcond : (['.', '0', '0', '0', 'Z'].isPrefixOf
      ('.' :: (pad3 (t % 1000) ++ ['Z']))) = false := by
    simp only [pad3, List.cons_append, List.isPrefixOf, List.nil_append]
    simp only [Bool.and_eq_false_iff]
    by_cases h1 : dChar (t % 1000 / 100 % 10) = '0'
    · by_cases h2 : dChar (t % 1000 / 10 % 10) = '0'
      · by_cases h3 : dChar (t % 1000 % 10) = '0'
        · exact absurd ⟨h1, h2, h3⟩ hne
        · simp [h1, h2, beq_eq_false_iff_ne, Ne.symm h3]
      · simp [h1, beq_eq_false_iff_ne, Ne.symm h2]
    · simp [beq_eq_false_iff_ne, Ne.symm h1]
  rw [show jsReplaceFirst ['.', '0', '0', '0', 'Z'] []
      ('.' :: (pad3 (t % 1000) ++ ['Z'])) =
      '.' :: jsReplaceFirst ['.', '0', '0', '0', 'Z'] [] (pad3 (t % 1000) ++ ['Z'])
    from by simp [jsReplaceFirst, hcond]]
  rw [jsReplaceFirst_no_occurrence '.' ['0', '0', '0', 'Z'] [] _ hdot2]
  rw [show isoBase t ++ '.' :: (pad3 (t % 1000) ++ ['Z']) =
    (isoBase t ++ '.' :: pad3 (t % 1000)) ++ ['Z'] from by simp]
  rw [jsReplaceFirst_append_left 'Z' [] [] ['Z'] _ hzpre]
  rw [show jsReplaceFirst ['Z'] [] ['Z'] = [] from by decide]
  simp

/-- Counterexample for C9: at epoch ms 123 (rendering `.123Z`), the
validator.ts copy of `formatDate` does NOT strip the nonzero fractional
seconds — `replace('.000Z','')` finds nothing and only the `Z` is removed. -/
theorem c9_counterexample :
    DateValidator.formatDate 123 ≠ isoBase 123 := by
  decide

/-- C9 as amended: the git.ts copy of `formatDate` always strips both the
fractional-seconds part and the UTC marker from the ISO rendering; the
validator.ts copy always strips the `Z` but keeps a nonzero fractional part,
stripping it only when it is `.000`. -/
theorem c9_format_strip (t : Nat) (_ht : t < isoMax) :
    DateValidatorI18n.formatDate t = isoBase t ∧
    DateValidator.formatDate t =
      isoBase t ++ (if t % 1000 = 0 then [] else '.' :: pad3 (t % 1000)) := by
  refine ⟨formatDateI18n_strips t, ?_⟩
  by_cases h : t % 1000 = 0
  · simp [h, formatDate_msZero t h]
  · simp [h, formatDate_msNonzero t h]

/-- Witness for the amended C9 at epoch ms 123: the git.ts copy strips the
`.123Z` suffix, the validator.ts copy keeps `.123`. -/
theorem c9_format_strip_witness :
    DateValidatorI18n.formatDate 123 = isoBase 123 ∧
    DateValidator.formatDate 123 = isoBase 123 ++ '.' :: pad3 123 := by
  have h := c9_format_strip 123 (by decide)
  simpa using h

/-- Counterexample for C10: the two duplicated `formatDate` implementations
disagree at epoch ms 123 (nonzero milliseconds). -/
theorem c10_counterexample :
    DateValidator.formatDate 123 ≠ DateValidatorI18n.formatDate 123 := by
  decide

/-- C10 as amended: the two duplicated `formatDate` copies agree exactly on
the dates whose millisecond component is zero; for a nonzero millisecond
component they differ (the validator.ts copy keeps the fractional part). -/
theorem c10_formatDate_agree_iff (t : Nat) (_ht : t < isoMax) :
    DateValidator.formatDate t = DateValidatorI18n.formatDate t ↔
      t % 1000 = 0 := by
  rw [formatDateI18n_strips]
  constructor
  · intro he
    by_contra h
    rw [formatDate_msNonzero t h] at he
    have hl := congrArg List.length he
    simp at hl
  · intro h
    exact formatDate_msZero t h

/-- Witness for the amended C10: at epoch ms 2000 (zero milliseconds) the
two copies agree; the bound and the millisecond condition are discharged
concretely. -/
theorem c10_formatDate_agree_iff_witness :
    DateValidator.formatDate 2000 = DateValidatorI18n.formatDate 2000 :=
  (c10_formatDate_agree_iff 2000 (by decide)).mpr (by decide)
